import Mathlib

/-!
# Verification of the MarkVault static-site build script (`src/build.js`)

This file gives a shallow embedding, in Lean 4, of the content-ingestion and
route/page-generation pipeline of `src/build.js`:

* the front-matter parser `parseMarkdown` (build.js lines 87-96),
* the content reader `readContent` (lines 68-85),
* the route builder inside `build` (lines 24-34),
* the template renderer `renderTemplate` (lines 151-285),
* the page assembler `generateHTML` / `updateMetaTags` (lines 98-149),
* the build orchestrator `build` (lines 9-66).

Strings manipulated character-by-character (file text, the front-matter
delimiter scan) are modelled as `List Char`; other strings are Lean `String`s.
External collaborators are parameters, mirroring how `build.js` imports them:

* `js-yaml`'s `yaml.load` becomes a parameter
  `yamlLoad : List Char → Except String Metadata` (a mapping parser that can
  fail on invalid syntax),
* `marked` (markdown → HTML) becomes `marked : List Char → String`,
* `Date#toLocaleDateString` becomes `formatDate : String → String`,
* the filesystem is an `Env` value holding the outcome of the two directory
  reads and whether the base document `site/index.html` has the `#root`
  mount node; JSDOM document assembly is represented by the
  `RenderedDocument` record of the parts `generateHTML` injects.

JavaScript semantics that matter here are modelled explicitly:
`String#split` on a separator (`splitSep`), `Array#join` (`joinSep`),
`String#replace` replacing the first occurrence only (`replaceFirstL`),
`String#endsWith` (`jsEndsWith`), template-literal interpolation of
`undefined` (`jsInterpOpt`), and `||`-defaulting with `""` falsy (`jsOr`).
Failure (a thrown/rejected JS error) is `Except.error`.

Out of scope, following the spec's scoping: asset copying, sitemap and
robots.txt text generation, the build-timestamp script tag (wall-clock), and
console logging.
-/

namespace MarkVault

/-! ## JavaScript string primitives -/

/-- `String#split(sep)` (leftmost, non-overlapping), on character lists.
`splitSep sep s` is the list of chunks of `s` between occurrences of `sep`.
For `sep = []` this returns `[s]`; `build.js` only splits on `"---\n"`,
which is nonempty. -/
def splitSep (sep : List Char) : List Char → List (List Char)
  | [] => [[]]
  | c :: cs =>
    if h : sep ≠ [] ∧ sep.isPrefixOf (c :: cs) then
      [] :: splitSep sep ((c :: cs).drop sep.length)
    else
      (splitSep sep cs).modifyHead (fun hd => c :: hd)
termination_by s => s.length
decreasing_by
  · have h1 : 0 < sep.length := List.length_pos.mpr h.1
    simp only [List.length_drop, List.length_cons]
    omega
  · simp only [List.length_cons]
    omega

/-- `Array#join(sep)` on character lists: concatenate the chunks with `sep`
between consecutive chunks. -/
def joinSep (sep : List Char) : List (List Char) → List Char
  | [] => []
  | [x] => x
  | x :: y :: rest => x ++ sep ++ joinSep sep (y :: rest)

/-- `String#replace(pat, repl)` with a string pattern: replace only the
leftmost occurrence of `pat`, if any. -/
def replaceFirstL (pat repl : List Char) : List Char → List Char
  | [] => []
  | c :: cs =>
    if pat.isPrefixOf (c :: cs) then repl ++ (c :: cs).drop pat.length
    else c :: replaceFirstL pat repl cs

/-- `String#replace` on `String`, via `replaceFirstL`. -/
def jsReplaceFirst (pat repl s : String) : String :=
  String.mk (replaceFirstL pat.data repl.data s.data)

/-- `String#endsWith(pat)`. -/
def jsEndsWith (pat s : String) : Bool :=
  pat.data.isSuffixOf s.data

/-- Number of positions of `s` at which the pattern `sep` matches.  Used to
state "the delimiter pattern occurs fewer than twice" independently of
`splitSep`. -/
def posCount (sep s : List Char) : Nat :=
  (List.range s.length).countP (fun i => sep.isPrefixOf (s.drop i))

/-- A pattern is border-free when no proper nonempty suffix of it equals the
prefix of the same length; such a pattern cannot overlap itself, so position
counting and leftmost non-overlapping splitting agree.  `"---\n"` is
border-free. -/
def borderFree (sep : List Char) : Prop :=
  ∀ j, 0 < j → j < sep.length → sep.take (sep.length - j) ≠ sep.drop j

instance (sep : List Char) : Decidable (borderFree sep) :=
  decidable_of_iff
    (∀ j < sep.length, 0 < j → sep.take (sep.length - j) ≠ sep.drop j)
    (by
      constructor
      · intro h j h0 hj
        exact h j hj h0
      · intro h j hj h0
        exact h j h0 hj)

/-- JS template-literal interpolation of a possibly-`undefined` value:
`undefined` prints as the string `"undefined"`. -/
def jsInterpOpt : Option String → String
  | none => "undefined"
  | some s => s

/-- JS `x || dflt` for a possibly-`undefined` string `x`: both `undefined`
and the empty string are falsy. -/
def jsOr (v : Option String) (dflt : String) : String :=
  match v with
  | none => dflt
  | some s => if s = "" then dflt else s

/-- JS truthiness of a possibly-`undefined` string. -/
def jsTruthy : Option String → Bool
  | none => false
  | some s => s ≠ ""

/-! ## Data model -/

/-- The parsed front-matter mapping (`yaml.load` result): string keys to
scalar values, modelled as strings.  JS property access `m.key` is
`m.lookup "key"`, `undefined` being `none`. -/
abbrev Metadata := List (String × String)

/-- Result of `parseMarkdown` (build.js line 95): the front-matter mapping
and the markdown body. -/
structure ParsedDoc where
  metadata : Metadata
  content : List Char
deriving DecidableEq

/-- A content item produced by `readContent` (build.js lines 76-80):
slug, front-matter metadata, and the `marked`-rendered HTML body. -/
structure ContentItem where
  slug : String
  metadata : Metadata
  content : String
deriving DecidableEq

/-- A route produced by the route builder (build.js lines 24-34).  The
`template` field is the dispatch key string; `data` is absent (`none`) on
the three static routes and present on per-post routes. -/
structure Route where
  path : String
  template : String
  title : String
  data : Option ContentItem
deriving DecidableEq

/-- The JS value handed to a template component as `data`: either
null/undefined, or an object whose `metadata` and `content` properties may
themselves be missing (`none`).  Accessing a property of a missing object
throws. -/
inductive JsData where
  | null : JsData
  | obj : Option Metadata → Option String → JsData
deriving DecidableEq

/-- The `data` argument `generateHTML` passes to the renderer for a route:
`undefined` for static routes, the post object for post routes. -/
def dataToJs : Option ContentItem → JsData
  | none => JsData.null
  | some item => JsData.obj (some item.metadata) (some item.content)

/-- The assembled page for one route (build.js lines 98-123): the parts
`generateHTML` injects into the base document — document title, the meta
tags added by `updateMetaTags`, and the fragment assigned to
`#root`'s `innerHTML`.  (The build-timestamp script tag is wall-clock
dependent and omitted.) -/
structure RenderedDocument where
  title : String
  meta : List (String × String)
  content : String
deriving DecidableEq

/-- Ambient context the template renderer needs: the outcome of the `about`
template's re-read of `site/content/pages` (build.js line 185), and the
date formatter.  -/
structure Ctx where
  pages : Except String (List ContentItem)
  formatDate : String → String

/-- The build's environment: the two directory listings (filename paired
with file text; `Except.error` models a failed `readdir`), whether the base
document `site/index.html` contains the `#root` mount element, and the three
external collaborators. -/
structure Env where
  postsDir : Except String (List (String × List Char))
  pagesDir : Except String (List (String × List Char))
  baseHasRoot : Bool
  yamlLoad : List Char → Except String Metadata
  marked : List Char → String
  formatDate : String → String

/-- What the route loop of `build` (lines 42-51) does to the filesystem:
the directories it creates and the files it writes, in loop order. -/
structure BuildOutput where
  dirs : List String
  pages : List (String × RenderedDocument)
deriving DecidableEq

/-- Outcome of running `build()`: normal completion, or `process.exit(code)`
from the catch block at build.js line 64. -/
inductive BuildResult where
  | completed : BuildOutput → BuildResult
  | exitCode : Nat → BuildResult
deriving DecidableEq

/-! ## Front-matter parser (build.js lines 87-96) -/

/-- The front-matter delimiter `"---\n"` that `parseMarkdown` splits on. -/
def frontSep : List Char := ['-', '-', '-', '\n']

/-- `parseMarkdown(content)` (build.js lines 87-96):
split on `"---\n"`; with fewer than 3 parts return empty metadata and the
whole input as body; otherwise `yaml.load` the second part (propagating its
failure) and rejoin the remaining parts with the delimiter as the body. -/
def parseMarkdown (yamlLoad : List Char → Except String Metadata)
    (content : List Char) : Except String ParsedDoc :=
  let parts := splitSep frontSep content
  if parts.length < 3 then
    Except.ok ⟨[], content⟩
  else
    match yamlLoad (parts.getD 1 []) with
    | Except.error e => Except.error e
    | Except.ok metadata => Except.ok ⟨metadata, joinSep frontSep (parts.drop 2)⟩

/-! ## Content reader (build.js lines 68-85) -/

/-- `readContent(dir)` body (build.js lines 72-84) over a directory listing:
keep entries ending in `".md"` in listing order; for each, parse the front
matter (a parse failure aborts the whole read) and build a `ContentItem`
whose slug is the filename with its first `".md"` occurrence removed
(`file.replace(".md", "")`) and whose content is the `marked` rendering of
the body. -/
def readContent (yamlLoad : List Char → Except String Metadata)
    (marked : List Char → String) :
    List (String × List Char) → Except String (List ContentItem)
  | [] => Except.ok []
  | (name, text) :: rest =>
    if jsEndsWith ".md" name then
      match parseMarkdown yamlLoad text with
      | Except.error e => Except.error e
      | Except.ok d =>
        match readContent yamlLoad marked rest with
        | Except.error e => Except.error e
        | Except.ok items =>
          Except.ok ({ slug := jsReplaceFirst ".md" "" name
                     , metadata := d.metadata
                     , content := marked d.content } :: items)
    else readContent yamlLoad marked rest

/-- `readContent(dir)` including the `fs.readdir` step: a failed directory
read propagates. -/
def readDir (yamlLoad : List Char → Except String Metadata)
    (marked : List Char → String)
    (dir : Except String (List (String × List Char))) :
    Except String (List ContentItem) :=
  match dir with
  | Except.error e => Except.error e
  | Except.ok files => readContent yamlLoad marked files

/-! ## Route builder (build.js lines 24-34) -/

/-- The static `/` route. -/
def homeRoute : Route := ⟨"/", "home", "MarkVault - Home", none⟩

/-- The static `/posts` route. -/
def postsRoute : Route := ⟨"/posts", "posts", "All Posts - MarkVault", none⟩

/-- The static `/about` route. -/
def aboutRoute : Route := ⟨"/about", "about", "About - MarkVault", none⟩

/-- The dynamic route for one post (build.js lines 28-33):
path `/posts/<slug>`, template `post`, title
`` `${post.metadata.title} - MarkVault` `` (template-literal interpolation,
so a missing title prints as `"undefined"`), data the post itself. -/
def postRouteOf (post : ContentItem) : Route :=
  ⟨"/posts/" ++ post.slug, "post",
    jsInterpOpt (post.metadata.lookup "title") ++ " - MarkVault", some post⟩

/-- The `routes` array (build.js lines 24-34): the three static routes in
fixed order, then one route per post in content-reader order. -/
def buildRoutes (posts : List ContentItem) : List Route :=
  [homeRoute, postsRoute, aboutRoute] ++ posts.map postRouteOf

/-! ## Template renderer (build.js lines 151-285)

HTML comment delimiters inside the fragment literals are written with
`\x2d` escapes for the hyphen; the string values are identical to the
source's template literals. -/

/-- The `home` component's fragment (build.js lines 154-171). -/
def homeFragment : String :=
  "\n    <div class=\"space-y-16 animate-fadeIn\">\n      <!\x2d\x2d Hero Section \x2d\x2d>\n      <section class=\"relative bg-gradient-to-br from-neutral-50 to-neutral-100 dark:from-neutral-800 dark:to-neutral-900 py-16 -mt-8\">\n        <div class=\"absolute inset-0 overflow-hidden\">\n          <div class=\"absolute inset-0 bg-[linear-gradient(to_right,#8882_1px,transparent_1px),linear-gradient(to_bottom,#8882_1px,transparent_1px)] bg-[size:14px_24px] [mask-image:radial-gradient(ellipse_60%_50%_at_50%_0%,#000_70%,transparent_110%)]\"></div>\n        </div>\n        <div class=\"relative max-w-4xl mx-auto px-4 text-center\">\n          <h1 class=\"text-4xl md:text-5xl font-bold text-neutral-800 dark:text-neutral-100 mb-4\">\n            Welcome to MarkVault\n          </h1>\n          <p class=\"text-lg text-neutral-600 dark:text-neutral-300 max-w-2xl mx-auto\">\n            A modern platform for digital preservation\n          </p>\n        </div>\n      </section>\n    </div>\n  "

/-- The `posts` component's fragment (build.js lines 173-180). -/
def postsFragment : String :=
  "\n      <div class=\"container mx-auto px-4 py-8\">\n        <h1 class=\"text-3xl font-bold mb-8\">All Posts</h1>\n        <div class=\"grid gap-6\">\n          <!\x2d\x2d Posts will be loaded dynamically \x2d\x2d>\n        </div>\n      </div>\n    "

/-- The fragment the `about` component produces when the about page was
found (build.js lines 193-223). -/
def aboutFound (aboutPage : ContentItem) : String :=
  "\n            <div class=\"space-y-16 animate-fadeIn\">\n              <!\x2d\x2d Header Section \x2d\x2d>\n              <section class=\"relative bg-gradient-to-br from-neutral-50 to-neutral-100 dark:from-neutral-800 dark:to-neutral-900 py-16 -mt-8\">\n                <div class=\"absolute inset-0 overflow-hidden\">\n                  <div class=\"absolute inset-0 bg-[linear-gradient(to_right,#8882_1px,transparent_1px),linear-gradient(to_bottom,#8882_1px,transparent_1px)] bg-[size:14px_24px] [mask-image:radial-gradient(ellipse_60%_50%_at_50%_0%,#000_70%,transparent_110%)]\"></div>\n                </div>\n                <div class=\"relative max-w-4xl mx-auto px-4 text-center\">\n                  <h1 class=\"text-4xl md:text-5xl font-bold text-neutral-800 dark:text-neutral-100 mb-4\">\n                    "
  ++ jsOr (aboutPage.metadata.lookup "title") "About"
  ++ "\n                  </h1>\n                  "
  ++ (if jsTruthy (aboutPage.metadata.lookup "subtitle") then
        "\n                    <p class=\"text-lg text-neutral-600 dark:text-neutral-300 max-w-2xl mx-auto\">\n                      "
        ++ jsInterpOpt (aboutPage.metadata.lookup "subtitle")
        ++ "\n                    </p>\n                  "
      else "")
  ++ "\n                </div>\n              </section>\n  \n              <!\x2d\x2d Content Section \x2d\x2d>\n              <section class=\"max-w-4xl mx-auto px-4\">\n                <div class=\"prose dark:prose-invert mx-auto\">\n                  "
  ++ aboutPage.content
  ++ "\n                </div>\n              </section>\n            </div>\n          "

/-- The `about` component's fallback when no page with slug `about`
exists (build.js line 190). -/
def aboutNotFoundFragment : String := "<div>About page not found</div>"

/-- The `about` component's catch-block fragment (build.js line 226). -/
def aboutErrorFragment : String := "<div>Error loading about page</div>"

/-- The `about` component (build.js lines 182-228): it re-reads
`site/content/pages` (the outcome is `pages`), searches for the item with
slug `"about"`, and falls back when the item is absent; its own
`try`/`catch` turns any internal failure — in particular a failed re-read —
into `aboutErrorFragment`, so the component's promise never rejects. -/
def aboutBody (pages : Except String (List ContentItem)) : Except String String :=
  match pages with
  | Except.error _ => Except.ok aboutErrorFragment
  | Except.ok items =>
    match items.find? (fun page => page.slug == "about") with
    | none => Except.ok aboutNotFoundFragment
    | some aboutPage => Except.ok (aboutFound aboutPage)

/-- The `post` component's fallback for null/undefined data
(build.js line 233). -/
def postNotFoundFragment : String := "<div>Post not found</div>"

/-- The article fragment the `post` component produces for present data
(build.js lines 241-259). -/
def postArticle (formatDate : String → String) (m : Metadata) (content : String) :
    String :=
  "\n          <article class=\"prose dark:prose-invert mx-auto px-4 py-8 max-w-4xl\">\n            <h1 class=\"text-4xl font-bold mb-4\">"
  ++ jsOr (m.lookup "title") "Untitled"
  ++ "</h1>\n            "
  ++ (if jsTruthy (m.lookup "date") then
        "\n              <time class=\"text-gray-600 mb-8 block\">\n                "
        ++ formatDate (jsInterpOpt (m.lookup "date"))
        ++ "\n              </time>\n            "
      else "")
  ++ "\n            <div class=\"markdown-content\">\n              "
  ++ content
  ++ "\n            </div>\n          </article>\n        "

/-- The `post` component (build.js lines 230-260): null/undefined data gets
the fallback fragment; otherwise the debug `console.log` dereferences
`data.metadata.title` and `data.content.substring`, so a missing `metadata`
or `content` property throws a `TypeError` (an `Except.error` here); with
both present it returns the article fragment. -/
def postBody (formatDate : String → String) (data : JsData) : Except String String :=
  match data with
  | JsData.null => Except.ok postNotFoundFragment
  | JsData.obj m c =>
    match m with
    | none => Except.error "TypeError: cannot read title of undefined"
    | some m =>
      match c with
      | none => Except.error "TypeError: cannot read substring of undefined"
      | some content => Except.ok (postArticle formatDate m content)

/-- Leading part of the unknown-template error fragment
(build.js lines 266-271). -/
def unknownTemplatePre : String :=
  "\n      <div class=\"container mx-auto px-4 py-8\">\n        <h1 class=\"text-3xl font-bold text-red-600\">Error</h1>\n        <p>Template \""

/-- Trailing part of the unknown-template error fragment. -/
def unknownTemplateSuf : String :=
  "\" not found</p>\n      </div>\n    "

/-- The error fragment returned when `components[template]` is missing
(build.js lines 264-272); it embeds the unknown template name. -/
def unknownTemplateFragment (template : String) : String :=
  unknownTemplatePre ++ template ++ unknownTemplateSuf

/-- The catch-block fragment for a template body that threw
(build.js lines 276-284). -/
def genericErrorFragment : String :=
  "\n      <div class=\"container mx-auto px-4 py-8\">\n        <h1 class=\"text-3xl font-bold text-red-600\">Error</h1>\n        <p>Failed to render template</p>\n      </div>\n    "

/-- What awaiting the dispatched call can produce: the own components
produce fragment strings, but an inherited `Object.prototype` method can
produce a non-string object (its identity is not tracked), a boolean, or
`undefined`. -/
inductive JsValue where
  | str : String → JsValue
  | object : JsValue
  | boolean : Bool → JsValue
  | undefined : JsValue
deriving DecidableEq

/-- The string the `innerHTML` setter coerces an assigned value to:
a plain object stringifies as `"[object Object]"`. -/
def jsToString : JsValue → String
  | JsValue.str s => s
  | JsValue.object => "[object Object]"
  | JsValue.boolean b => if b then "true" else "false"
  | JsValue.undefined => "undefined"

/-- The property names the `components` object literal inherits from
`Object.prototype`.  For these, `components[template]` walks the prototype
chain to a truthy inherited value, so the `!components[template]` miss
check at build.js line 264 does not fire. -/
def objectProtoProps : List String :=
  ["constructor", "hasOwnProperty", "isPrototypeOf", "propertyIsEnumerable",
   "toLocaleString", "toString", "valueOf", "__defineGetter__",
   "__defineSetter__", "__lookupGetter__", "__lookupSetter__", "__proto__"]

/-- `components[template](data)` for an inherited `Object.prototype` name,
with `this = components` and `data` one of the model's `JsData` values
(undefined, or a plain parsed-content object; their property-key coercions
`"undefined"`/`"[object Object]"` never hit an own key of `components`):
`toString` and `toLocaleString` return `"[object Object]"`; `valueOf`
returns the `components` object itself and `constructor` is `Object`,
returning an object; the three predicate methods return `false`; the two
lookup methods return `undefined`; `__defineGetter__`/`__defineSetter__`
throw (their getter/setter argument is undefined, not callable), and
`__proto__` evaluates to `Object.prototype`, which is not a function, so
the call throws. -/
def callProtoMethod (name : String) (_data : JsData) : Except String JsValue :=
  if name = "toString" ∨ name = "toLocaleString" then
    Except.ok (JsValue.str "[object Object]")
  else if name = "valueOf" ∨ name = "constructor" then Except.ok JsValue.object
  else if name = "hasOwnProperty" ∨ name = "isPrototypeOf"
      ∨ name = "propertyIsEnumerable" then Except.ok (JsValue.boolean false)
  else if name = "__lookupGetter__" ∨ name = "__lookupSetter__" then
    Except.ok JsValue.undefined
  else Except.error "TypeError: not a function"

/-- The `try`/`catch` around the component call (build.js lines 274-284):
a synchronous throw is replaced by `genericErrorFragment`. -/
def catchToGeneric : Except String JsValue → Except String JsValue
  | Except.ok v => Except.ok v
  | Except.error _ => Except.ok (JsValue.str genericErrorFragment)

/-- `renderTemplate(template, data)` (build.js lines 151-285).  The lookup
`components[template]` finds an own key (the four components), else walks
the prototype chain to an inherited `Object.prototype` property, and only
otherwise is falsy, taking the unknown-template branch without calling
anything.  Synchronous calls — the `home`/`posts`/`post` components and the
inherited methods — run inside the `try`/`catch`.  The `about` component is
`async`: calling it returns a promise, so the `try`/`catch` cannot
intercept its rejections — its result is returned as-is (it never rejects,
because of its inner `catch`; see `aboutBody`). -/
def renderTemplate (ctx : Ctx) (template : String) (data : JsData) :
    Except String JsValue :=
  if template = "home" then catchToGeneric (Except.ok (JsValue.str homeFragment))
  else if template = "posts" then catchToGeneric (Except.ok (JsValue.str postsFragment))
  else if template = "about" then Except.map JsValue.str (aboutBody ctx.pages)
  else if template = "post" then
    catchToGeneric (Except.map JsValue.str (postBody ctx.formatDate data))
  else if template ∈ objectProtoProps then
    catchToGeneric (callProtoMethod template data)
  else Except.ok (JsValue.str (unknownTemplateFragment template))

/-! ## Page assembler (build.js lines 98-149) -/

/-- Site-wide default description used in the `description` meta tag
(build.js line 129). -/
def defaultDescription : String :=
  "MarkVault - Preserving digital content for generations"

/-- Site-wide default used in the `og:description` meta tag
(build.js line 133). -/
def defaultOgDescription : String :=
  "MarkVault - A modern markdown-powered platform"

/-- `data?.metadata?.description`: optional chaining never throws; a missing
object or key is `undefined`. -/
def dataDescription : JsData → Option String
  | JsData.null => none
  | JsData.obj none _ => none
  | JsData.obj (some m) _ => m.lookup "description"

/-- `updateMetaTags` (build.js lines 125-149): the fixed, closed set of
meta tags appended to the head, in insertion order. -/
def updateMetaTags (title path : String) (data : JsData) : List (String × String) :=
  [("description", jsOr (dataDescription data) defaultDescription),
   ("og:title", title),
   ("og:description", jsOr (dataDescription data) defaultOgDescription),
   ("og:url", "https://univault-org.github.io/MarkVault" ++ path),
   ("og:type", "website"),
   ("twitter:card", "summary_large_image")]

/-- The renderer context `generateHTML` runs under: the `about` component
re-executes `readContent("site/content/pages")`, whose outcome in this
deterministic model is the same `readDir` value. -/
def ctxOf (env : Env) : Ctx :=
  ⟨readDir env.yamlLoad env.marked env.pagesDir, env.formatDate⟩

/-- `generateHTML(route)` (build.js lines 98-123): render the fragment
first (line 108), then assign it to `document.getElementById("root")`
(line 109) — when the base document has no `#root` element,
`getElementById` returns null and the assignment throws, which is NOT
caught inside `generateHTML`.  On success the result is the assembled
document: title, injected meta tags, and the mounted value coerced to a
string by the `innerHTML` setter. -/
def generateHTML (env : Env) (route : Route) : Except String RenderedDocument :=
  match renderTemplate (ctxOf env) route.template (dataToJs route.data) with
  | Except.error e => Except.error e
  | Except.ok content =>
    if env.baseHasRoot then
      Except.ok ⟨route.title,
                 updateMetaTags route.title route.path (dataToJs route.data),
                 jsToString content⟩
    else Except.error "TypeError: cannot set innerHTML of null"

/-! ## Build orchestrator (build.js lines 9-66) -/

/-- `String#startsWith(pat)`. -/
def jsStartsWith (pat s : String) : Bool :=
  pat.data.isPrefixOf s.data

/-- `path.join(a, b)` for the shapes the route loop produces: `"."` is
dropped, a leading slash of `b` merges with `a`. -/
def pathJoin (a b : String) : String :=
  if b = "." then a
  else if jsStartsWith "/" b then a ++ b
  else a ++ "/" ++ b

/-- `path.dirname(p)` for relative/route file names: everything before the
last `/`, or `"."` when there is none. -/
def jsDirname (s : String) : String :=
  if '/' ∈ s.data then
    String.mk ((s.data.reverse.drop (s.data.reverse.findIdx (fun c => c == '/') + 1)).reverse)
  else "."

/-- The route loop of `build` (build.js lines 42-51): for each route in
order, `generateHTML` (a failure aborts the loop and the build), the
route's output file name, the `mkdir` of its directory and the write of the
file under `docs`.  The model collects the created directories and written
files; the partial writes left behind by an abort are not modelled. -/
def routeOutputs (env : Env) : List Route → Except String BuildOutput
  | [] => Except.ok ⟨[], []⟩
  | route :: rest =>
    match generateHTML env route with
    | Except.error e => Except.error e
    | Except.ok html =>
      let fileName := if route.path = "/" then "index.html" else route.path ++ "/index.html"
      match routeOutputs env rest with
      | Except.error e => Except.error e
      | Except.ok out =>
        Except.ok ⟨pathJoin "docs" (jsDirname fileName) :: out.dirs,
                   (pathJoin "docs" fileName, html) :: out.pages⟩

/-- The body of `build`'s `try` block restricted to the in-scope pipeline
(build.js lines 20-51): read posts, read pages (bound but unused at this
point), derive routes, run the route loop.  Asset copying, sitemap,
robots.txt and `.nojekyll` (lines 53-58) only touch `docs`, `docs/content`
and `docs/assets` and are out of scope. -/
def buildCore (env : Env) : Except String BuildOutput :=
  match readDir env.yamlLoad env.marked env.postsDir with
  | Except.error e => Except.error e
  | Except.ok posts =>
    match readDir env.yamlLoad env.marked env.pagesDir with
    | Except.error e => Except.error e
    | Except.ok _pages => routeOutputs env (buildRoutes posts)

/-- `build()` (build.js lines 9-66): any error reaching the top-level
`catch` terminates the process with exit status 1. -/
def build (env : Env) : BuildResult :=
  match buildCore env with
  | Except.ok out => BuildResult.completed out
  | Except.error _ => BuildResult.exitCode 1

/-! ## Spec-side definition for the slug comparison (claim C7) -/

/-- The spec's words for the slug: "the filename without its extension" —
the name with its final `.`-separated extension removed.  This is a
spec-side definition, to be compared with the source's
`file.replace(".md", "")`. -/
def withoutExtension (name : String) : String :=
  if '.' ∈ name.data then
    String.mk ((name.data.reverse.drop (name.data.reverse.findIdx (fun c => c == '.') + 1)).reverse)
  else name

/-! ## Lemmas about the split/join/count primitives -/

/-- Unfolding `splitSep` at `[]`. -/
lemma splitSep_nil (sep : List Char) : splitSep sep [] = [[]] := by
  rw [splitSep]

/-- Unfolding `splitSep` at a cons starting an occurrence of `sep`. -/
lemma splitSep_cons_pos (sep : List Char) (c : Char) (cs : List Char)
    (h : sep ≠ [] ∧ sep.isPrefixOf (c :: cs)) :
    splitSep sep (c :: cs) = [] :: splitSep sep ((c :: cs).drop sep.length) := by
  rw [splitSep, dif_pos h]

/-- Unfolding `splitSep` at a cons not starting an occurrence of `sep`. -/
lemma splitSep_cons_neg (sep : List Char) (c : Char) (cs : List Char)
    (h : ¬(sep ≠ [] ∧ sep.isPrefixOf (c :: cs))) :
    splitSep sep (c :: cs) = (splitSep sep cs).modifyHead (fun hd => c :: hd) := by
  rw [splitSep, dif_neg h]

/-- `modifyHead` preserves nonemptiness. -/
lemma modifyHead_ne_nil {α : Type} (f : α → α) {l : List α} (h : l ≠ []) :
    l.modifyHead f ≠ [] := by
  cases l with
  | nil => exact absurd rfl h
  | cons x xs => simp [List.modifyHead]

/-- `splitSep` always returns at least one chunk. -/
lemma splitSep_ne_nil (sep : List Char) (s : List Char) : splitSep sep s ≠ [] := by
  have key : ∀ n t, List.length t ≤ n → splitSep sep t ≠ [] := by
    intro n
    induction n with
    | zero =>
      intro t ht
      have : t = [] := List.length_eq_zero.mp (Nat.le_zero.mp ht)
      subst this
      rw [splitSep_nil]
      simp
    | succ n ih =>
      intro t ht
      match t with
      | [] =>
        rw [splitSep_nil]
        simp
      | c :: cs =>
        by_cases h : sep ≠ [] ∧ sep.isPrefixOf (c :: cs)
        · rw [splitSep_cons_pos _ _ _ h]
          simp
        · rw [splitSep_cons_neg _ _ _ h]
          have hcs : List.length cs ≤ n := by
            simp only [List.length_cons] at ht
            omega
          exact modifyHead_ne_nil _ (ih cs hcs)
  exact key s.length s le_rfl

/-- Splitting a string that starts with the separator peels an empty chunk. -/
lemma splitSep_sep_append (sep rest : List Char) (hsep : sep ≠ []) :
    splitSep sep (sep ++ rest) = [] :: splitSep sep rest := by
  cases sep with
  | nil => exact absurd rfl hsep
  | cons d ds =>
    have h : (d :: ds) ≠ [] ∧ (d :: ds).isPrefixOf (d :: (ds ++ rest)) := by
      refine ⟨hsep, ?_⟩
      rw [List.isPrefixOf_iff_prefix, ← List.cons_append]
      exact List.prefix_append _ _
    have hdrop : List.drop (d :: ds).length (d :: (ds ++ rest)) = rest := by
      rw [List.length_cons, List.drop_succ_cons, List.drop_left]
    rw [List.cons_append, splitSep_cons_pos _ _ _ h, hdrop]

/-- Splitting `m ++ rest` when no occurrence of `sep` starts inside `m`:
the scan walks through `m` and prepends it to the first chunk of the rest. -/
lemma splitSep_append_no_match (sep : List Char) :
    ∀ (m rest : List Char),
      (∀ i, i < m.length → sep.isPrefixOf ((m ++ rest).drop i) = false) →
      splitSep sep (m ++ rest) = (splitSep sep rest).modifyHead (fun hd => m ++ hd) := by
  intro m
  induction m with
  | nil =>
    intro rest _
    rw [List.nil_append]
    cases splitSep sep rest <;> simp [List.modifyHead]
  | cons c m' ih =>
    intro rest h
    have h0 : sep.isPrefixOf (c :: (m' ++ rest)) = false := by
      have := h 0 (by simp)
      simpa using this
    have hcond : ¬(sep ≠ [] ∧ sep.isPrefixOf (c :: (m' ++ rest))) := by
      intro hc
      rw [h0] at hc
      exact absurd hc.2 (by simp)
    have hshift : ∀ i, i < m'.length → sep.isPrefixOf ((m' ++ rest).drop i) = false := by
      intro i hi
      have := h (i + 1) (by simp only [List.length_cons]; omega)
      simpa [List.drop_succ_cons] using this
    rw [List.cons_append, splitSep_cons_neg _ _ _ hcond, ih rest hshift]
    cases splitSep sep rest <;> simp [List.modifyHead]

/-- `joinSep` is a left inverse of `splitSep`: rejoining the chunks with the
separator recovers the original string (for a nonempty separator). -/
lemma joinSep_splitSep (sep : List Char) (hsep : sep ≠ []) (s : List Char) :
    joinSep sep (splitSep sep s) = s := by
  have key : ∀ n t, List.length t ≤ n → joinSep sep (splitSep sep t) = t := by
    intro n
    induction n with
    | zero =>
      intro t ht
      have : t = [] := List.length_eq_zero.mp (Nat.le_zero.mp ht)
      subst this
      rw [splitSep_nil]
      rfl
    | succ n ih =>
      intro t ht
      match t with
      | [] =>
        rw [splitSep_nil]
        rfl
      | c :: cs =>
        by_cases h : sep ≠ [] ∧ sep.isPrefixOf (c :: cs)
        · rw [splitSep_cons_pos _ _ _ h]
          obtain ⟨tl, htl⟩ := List.isPrefixOf_iff_prefix.mp h.2
          have hdrop : (c :: cs).drop sep.length = tl := by
            rw [← htl, List.drop_left]
          rw [hdrop]
          obtain ⟨x, xs, hx⟩ : ∃ x xs, splitSep sep tl = x :: xs := by
            cases hsp : splitSep sep tl with
            | nil => exact absurd hsp (splitSep_ne_nil sep tl)
            | cons x xs => exact ⟨x, xs, rfl⟩
          have htlen : List.length tl ≤ n := by
            have hlen := congrArg List.length htl
            simp only [List.length_append, List.length_cons] at hlen ht
            have hpos : 0 < sep.length := List.length_pos.mpr hsep
            omega
          have ihtl := ih tl htlen
          rw [hx] at ihtl ⊢
          show [] ++ sep ++ joinSep sep (x :: xs) = c :: cs
          rw [List.nil_append, ← htl, ihtl]
        · rw [splitSep_cons_neg _ _ _ h]
          have hcs : List.length cs ≤ n := by
            simp only [List.length_cons] at ht
            omega
          have ihcs := ih cs hcs
          obtain ⟨x, xs, hx⟩ : ∃ x xs, splitSep sep cs = x :: xs := by
            cases hsp : splitSep sep cs with
            | nil => exact absurd hsp (splitSep_ne_nil sep cs)
            | cons x xs => exact ⟨x, xs, rfl⟩
          rw [hx] at ihcs ⊢
          cases xs with
          | nil =>
            show c :: x = c :: cs
            rw [show joinSep sep [x] = x from rfl] at ihcs
            rw [ihcs]
          | cons y ys =>
            show (c :: x) ++ sep ++ joinSep sep (y :: ys) = c :: cs
            rw [show joinSep sep (x :: y :: ys) = x ++ sep ++ joinSep sep (y :: ys) from rfl] at ihcs
            simp only [List.cons_append, List.append_assoc] at ihcs ⊢
            rw [ihcs]
  exact key s.length s le_rfl

/-- `posCount` at `[]`. -/
lemma posCount_nil (sep : List Char) : posCount sep [] = 0 := rfl

/-- `posCount` at a cons: a possible match at position 0 plus the matches
in the tail. -/
lemma posCount_cons (sep : List Char) (c : Char) (cs : List Char) :
    posCount sep (c :: cs)
      = (if sep.isPrefixOf (c :: cs) then 1 else 0) + posCount sep cs := by
  unfold posCount
  rw [List.length_cons, List.range_succ_eq_map, List.countP_cons, List.countP_map]
  have hfun : (List.range cs.length).countP
        ((fun i => sep.isPrefixOf ((c :: cs).drop i)) ∘ (fun i => i + 1))
      = (List.range cs.length).countP (fun i => sep.isPrefixOf (cs.drop i)) := by
    apply List.countP_congr
    intro a _
    simp [Function.comp, List.drop_succ_cons]
  rw [hfun, List.drop_zero]
  rw [Nat.add_comm]

/-- If no occurrence of `sep` starts within the first `k` positions of `s`,
the matches of `s` are the matches of `s.drop k`. -/
lemma posCount_drop (sep : List Char) :
    ∀ (k : Nat) (s : List Char),
      (∀ j, j < k → sep.isPrefixOf (s.drop j) = false) →
      posCount sep s = posCount sep (s.drop k) := by
  intro k
  induction k with
  | zero =>
    intro s _
    rw [List.drop_zero]
  | succ k ih =>
    intro s h
    match s with
    | [] => rw [List.drop_nil]
    | c :: cs =>
      have h0 : sep.isPrefixOf (c :: cs) = false := by
        simpa using h 0 (by omega)
      rw [posCount_cons, h0, List.drop_succ_cons]
      simp only [Bool.false_eq_true, if_false, Nat.zero_add]
      exact ih cs (fun j hj => by simpa [List.drop_succ_cons] using h (j + 1) (by omega))

/-- A border-free pattern matching at position 0 cannot match again before
position `sep.length`. -/
lemma no_match_in_overlap (sep s : List Char) (hbf : borderFree sep)
    (hpre : sep.isPrefixOf s = true) :
    ∀ j, 0 < j → j < sep.length → sep.isPrefixOf (s.drop j) = false := by
  intro j hj0 hjL
  by_contra hc
  have hc' : sep.isPrefixOf (s.drop j) = true := by
    cases hb : sep.isPrefixOf (s.drop j) with
    | false => exact absurd hb hc
    | true => rfl
  obtain ⟨t, rfl⟩ := List.isPrefixOf_iff_prefix.mp hpre
  have hdrop : (sep ++ t).drop j = sep.drop j ++ t := by
    rw [List.drop_append_eq_append_drop]
    have : j - sep.length = 0 := by omega
    rw [this, List.drop_zero]
  rw [hdrop] at hc'
  obtain ⟨u, hu⟩ := List.isPrefixOf_iff_prefix.mp hc'
  have htake := congrArg (List.take (sep.length - j)) hu
  rw [List.take_append_of_le_length (by omega)] at htake
  rw [List.take_append_of_le_length (by rw [List.length_drop])] at htake
  have hfull : (sep.drop j).take (sep.length - j) = sep.drop j :=
    List.take_of_length_le (le_of_eq (by rw [List.length_drop]))
  rw [hfull] at htake
  exact hbf j hj0 hjL htake

/-- For a nonempty, border-free separator the number of chunks is one more
than the number of matching positions. -/
lemma splitSep_length (sep : List Char) (hsep : sep ≠ []) (hbf : borderFree sep)
    (s : List Char) :
    (splitSep sep s).length = posCount sep s + 1 := by
  have key : ∀ n t, List.length t ≤ n →
      (splitSep sep t).length = posCount sep t + 1 := by
    intro n
    induction n with
    | zero =>
      intro t ht
      have : t = [] := List.length_eq_zero.mp (Nat.le_zero.mp ht)
      subst this
      rw [splitSep_nil, posCount_nil]
      rfl
    | succ n ih =>
      intro t ht
      match t with
      | [] =>
        rw [splitSep_nil, posCount_nil]
        rfl
      | c :: cs =>
        by_cases h : sep ≠ [] ∧ sep.isPrefixOf (c :: cs)
        · rw [splitSep_cons_pos _ _ _ h, List.length_cons]
          have hLpos : 0 < sep.length := List.length_pos.mpr hsep
          have hlen : List.length ((c :: cs).drop sep.length) ≤ n := by
            rw [List.length_drop]
            simp only [List.length_cons] at ht ⊢
            omega
          rw [ih _ hlen]
          have hstep : (c :: cs).drop sep.length = cs.drop (sep.length - 1) := by
            cases sep with
            | nil => exact absurd rfl hsep
            | cons d ds => simp [List.drop_succ_cons]
          have hno := no_match_in_overlap sep (c :: cs) hbf h.2
          have hcs : posCount sep cs = posCount sep (cs.drop (sep.length - 1)) := by
            apply posCount_drop
            intro j hj
            have := hno (j + 1) (by omega) (by omega)
            simpa [List.drop_succ_cons] using this
          rw [hstep, posCount_cons, h.2, ← hcs]
          simp [Nat.add_comm]
        · rw [splitSep_cons_neg _ _ _ h, List.length_modifyHead]
          have hf : sep.isPrefixOf (c :: cs) = false := by
            cases hb : sep.isPrefixOf (c :: cs) with
            | false => rfl
            | true => exact absurd ⟨hsep, hb⟩ h
          have hcs : List.length cs ≤ n := by
            simp only [List.length_cons] at ht
            omega
          rw [ih cs hcs, posCount_cons, hf]
          simp
  exact key s.length s le_rfl

/-! ## Concrete collaborator stubs (used to instantiate witnesses) -/

/-- A yaml parser stub that accepts everything with an empty mapping. -/
def yamlStub : List Char → Except String Metadata := fun _ => Except.ok []

/-- A markdown renderer stub: the identity transform. -/
def markedStub : List Char → String := fun l => String.mk l

/-- A date formatter stub: the identity. -/
def dateStub : String → String := fun s => s

/-! ## Helper lemmas about the parser -/

/-- The front-matter delimiter is nonempty. -/
lemma frontSep_ne_nil : frontSep ≠ [] := by decide

/-- The front-matter delimiter is border-free (it cannot overlap itself). -/
lemma frontSep_borderFree : borderFree frontSep := by decide

/-- With fewer than two delimiter matches, `parseMarkdown` returns empty
metadata and the whole input, never consulting the yaml parser. -/
lemma parseMarkdown_no_front (yamlLoad : List Char → Except String Metadata)
    (content : List Char) (h : posCount frontSep content < 2) :
    parseMarkdown yamlLoad content = Except.ok ⟨[], content⟩ := by
  have hlen := splitSep_length frontSep frontSep_ne_nil frontSep_borderFree content
  have h3 : (splitSep frontSep content).length < 3 := by omega
  simp only [parseMarkdown]
  rw [if_pos h3]

/-- With a leading delimited block whose inside `m` contains no delimiter
match, `parseMarkdown` yaml-parses `m` and takes everything after the
second delimiter as the body, propagating a yaml failure. -/
lemma parseMarkdown_front (yamlLoad : List Char → Except String Metadata)
    (m b : List Char)
    (hfree : ∀ i, i < m.length →
      frontSep.isPrefixOf ((m ++ (frontSep ++ b)).drop i) = false) :
    parseMarkdown yamlLoad (frontSep ++ (m ++ (frontSep ++ b)))
      = Except.map (fun md => ParsedDoc.mk md b) (yamlLoad m) := by
  have hsplit : splitSep frontSep (frontSep ++ (m ++ (frontSep ++ b)))
      = [] :: m :: splitSep frontSep b := by
    rw [splitSep_sep_append _ _ frontSep_ne_nil,
        splitSep_append_no_match _ _ _ hfree,
        splitSep_sep_append _ _ frontSep_ne_nil]
    simp [List.modifyHead]
  have hpos : 0 < (splitSep frontSep b).length :=
    List.length_pos.mpr (splitSep_ne_nil frontSep b)
  simp only [parseMarkdown]
  rw [hsplit]
  rw [if_neg (by simp only [List.length_cons]; omega)]
  have hg : ([] :: m :: splitSep frontSep b).getD 1 [] = m := rfl
  have hd : ([] :: m :: splitSep frontSep b).drop 2 = splitSep frontSep b := rfl
  rw [hg, hd, joinSep_splitSep frontSep frontSep_ne_nil b]
  cases yamlLoad m <;> rfl

/-- A listing with no `.md` entries reads as the empty item list. -/
lemma readContent_no_md (yamlLoad : List Char → Except String Metadata)
    (marked : List Char → String) :
    ∀ files : List (String × List Char),
      files.filter (fun f => jsEndsWith ".md" f.1) = [] →
      readContent yamlLoad marked files = Except.ok [] := by
  intro files
  induction files with
  | nil => intro _; rfl
  | cons f rest ih =>
    intro h
    obtain ⟨name, text⟩ := f
    rw [List.filter_cons] at h
    by_cases hmd : jsEndsWith ".md" name = true
    · rw [if_pos hmd] at h
      exact absurd h (by simp)
    · have hmd' : jsEndsWith ".md" name = false := by
        cases hb : jsEndsWith ".md" name with
        | false => rfl
        | true => exact absurd hb hmd
      rw [if_neg hmd] at h
      show readContent yamlLoad marked ((name, text) :: rest) = Except.ok []
      rw [readContent]
      rw [if_neg (by rw [hmd']; simp)]
      exact ih h

/-! ## Helper lemmas about the renderer and the build -/

/-- The renderer's `try`/`catch` always produces a value. -/
lemma catchToGeneric_ok (e : Except String JsValue) :
    ∃ v, catchToGeneric e = Except.ok v := by
  cases e with
  | ok v => exact ⟨v, rfl⟩
  | error _ => exact ⟨JsValue.str genericErrorFragment, rfl⟩

/-- The `try`/`catch` over a string-producing body always produces a
string: the body's fragment, or the generic error fragment. -/
lemma catchToGeneric_map_str (e : Except String String) :
    ∃ s, catchToGeneric (Except.map JsValue.str e) = Except.ok (JsValue.str s) := by
  cases e with
  | ok s => exact ⟨s, rfl⟩
  | error _ => exact ⟨genericErrorFragment, rfl⟩

/-- The `about` component's promise never rejects. -/
lemma aboutBody_ok (pages : Except String (List ContentItem)) :
    ∃ s, aboutBody pages = Except.ok s := by
  unfold aboutBody
  cases pages with
  | error e => exact ⟨aboutErrorFragment, rfl⟩
  | ok items =>
    cases hf : items.find? (fun page => page.slug == "about") with
    | none => exact ⟨aboutNotFoundFragment, by simp [hf]⟩
    | some p => exact ⟨aboutFound p, by simp [hf]⟩

/-- `renderTemplate` always resolves with some value. -/
lemma renderTemplate_ok (ctx : Ctx) (template : String) (data : JsData) :
    ∃ v, renderTemplate ctx template data = Except.ok v := by
  unfold renderTemplate
  by_cases h1 : template = "home"
  · rw [if_pos h1]; exact catchToGeneric_ok _
  rw [if_neg h1]
  by_cases h2 : template = "posts"
  · rw [if_pos h2]; exact catchToGeneric_ok _
  rw [if_neg h2]
  by_cases h3 : template = "about"
  · rw [if_pos h3]
    obtain ⟨s, hs⟩ := aboutBody_ok ctx.pages
    exact ⟨JsValue.str s, by rw [hs]; rfl⟩
  rw [if_neg h3]
  by_cases h4 : template = "post"
  · rw [if_pos h4]; exact catchToGeneric_ok _
  rw [if_neg h4]
  by_cases h5 : template ∈ objectProtoProps
  · rw [if_pos h5]; exact catchToGeneric_ok _
  rw [if_neg h5]
  exact ⟨JsValue.str (unknownTemplateFragment template), rfl⟩

/-- Outside the inherited `Object.prototype` names, `renderTemplate`
always resolves with a string. -/
lemma renderTemplate_str (ctx : Ctx) (template : String) (data : JsData)
    (hpp : template ∉ objectProtoProps) :
    ∃ s, renderTemplate ctx template data = Except.ok (JsValue.str s) := by
  unfold renderTemplate
  by_cases h1 : template = "home"
  · rw [if_pos h1]; exact ⟨homeFragment, rfl⟩
  rw [if_neg h1]
  by_cases h2 : template = "posts"
  · rw [if_pos h2]; exact ⟨postsFragment, rfl⟩
  rw [if_neg h2]
  by_cases h3 : template = "about"
  · rw [if_pos h3]
    obtain ⟨s, hs⟩ := aboutBody_ok ctx.pages
    exact ⟨s, by rw [hs]; rfl⟩
  rw [if_neg h3]
  by_cases h4 : template = "post"
  · rw [if_pos h4]; exact catchToGeneric_map_str _
  rw [if_neg h4]
  rw [if_neg hpp]
  exact ⟨unknownTemplateFragment template, rfl⟩

/-- True dispatch miss: a template name that is neither an own component
key nor an inherited `Object.prototype` property yields the
unknown-template fragment. -/
lemma renderTemplate_unknown (ctx : Ctx) (template : String) (data : JsData)
    (h : template ∉ (["home", "posts", "about", "post"] : List String))
    (hpp : template ∉ objectProtoProps) :
    renderTemplate ctx template data
      = Except.ok (JsValue.str (unknownTemplateFragment template)) := by
  simp only [List.mem_cons, List.not_mem_nil, or_false, not_or] at h
  obtain ⟨h1, h2, h3, h4⟩ := h
  unfold renderTemplate
  rw [if_neg h1, if_neg h2, if_neg h3, if_neg h4, if_neg hpp]

/-- With the mount node present, `generateHTML` assembles the document from
the route's title, the injected meta tags and the rendered fragment. -/
lemma generateHTML_ok (env : Env) (route : Route) (h : env.baseHasRoot = true) :
    ∃ v, renderTemplate (ctxOf env) route.template (dataToJs route.data) = Except.ok v
      ∧ generateHTML env route
          = Except.ok ⟨route.title,
                       updateMetaTags route.title route.path (dataToJs route.data),
                       jsToString v⟩ := by
  obtain ⟨v, hv⟩ := renderTemplate_ok (ctxOf env) route.template (dataToJs route.data)
  refine ⟨v, hv, ?_⟩
  unfold generateHTML
  rw [hv, h]
  rfl

/-- Without the mount node, `generateHTML` throws after rendering. -/
lemma generateHTML_err (env : Env) (route : Route) (h : env.baseHasRoot = false) :
    generateHTML env route = Except.error "TypeError: cannot set innerHTML of null" := by
  obtain ⟨s, hs⟩ := renderTemplate_ok (ctxOf env) route.template (dataToJs route.data)
  unfold generateHTML
  rw [hs, h]
  rfl

/-- Unfolding the route loop at a cons. -/
lemma routeOutputs_cons (env : Env) (route : Route) (rest : List Route) :
    routeOutputs env (route :: rest)
      = match generateHTML env route with
        | Except.error e => Except.error e
        | Except.ok html =>
          match routeOutputs env rest with
          | Except.error e => Except.error e
          | Except.ok out =>
            Except.ok ⟨pathJoin "docs" (jsDirname (if route.path = "/" then "index.html" else route.path ++ "/index.html")) :: out.dirs,
                       (pathJoin "docs" (if route.path = "/" then "index.html" else route.path ++ "/index.html"), html) :: out.pages⟩ := rfl

/-- The route loop aborts on the first failing route. -/
lemma routeOutputs_cons_err (env : Env) (route : Route) (rest : List Route) (e : String)
    (h : generateHTML env route = Except.error e) :
    routeOutputs env (route :: rest) = Except.error e := by
  rw [routeOutputs_cons, h]

/-- The route loop at a cons, both steps succeeding. -/
lemma routeOutputs_cons_ok (env : Env) (route : Route) (rest : List Route)
    (html : RenderedDocument) (out : BuildOutput)
    (h1 : generateHTML env route = Except.ok html)
    (h2 : routeOutputs env rest = Except.ok out) :
    routeOutputs env (route :: rest)
      = Except.ok ⟨pathJoin "docs" (jsDirname (if route.path = "/" then "index.html" else route.path ++ "/index.html")) :: out.dirs,
                   (pathJoin "docs" (if route.path = "/" then "index.html" else route.path ++ "/index.html"), html) :: out.pages⟩ := by
  rw [routeOutputs_cons, h1, h2]

/-- Without the mount node, the whole pipeline errors. -/
lemma buildCore_err_of_noRoot (env : Env) (h : env.baseHasRoot = false) :
    ∃ e, buildCore env = Except.error e := by
  unfold buildCore
  cases readDir env.yamlLoad env.marked env.postsDir with
  | error e => exact ⟨e, rfl⟩
  | ok posts =>
    cases readDir env.yamlLoad env.marked env.pagesDir with
    | error e => exact ⟨e, rfl⟩
    | ok pg =>
      show ∃ e, routeOutputs env (buildRoutes posts) = Except.error e
      have hroutes : buildRoutes posts
          = homeRoute :: ([postsRoute, aboutRoute] ++ posts.map postRouteOf) := rfl
      rw [hroutes,
          routeOutputs_cons_err env homeRoute _ _ (generateHTML_err env homeRoute h)]
      exact ⟨_, rfl⟩

/-- A decomposition `pre ++ pat ++ suf = s` would put a match of `pat` at
position `pre.length`, so none exists when `pat` matches at no position. -/
lemma not_exists_decomposition (pat s : List Char) (hpat : pat ≠ [])
    (h : posCount pat s = 0) :
    ¬ ∃ pre suf : List Char, pre ++ pat ++ suf = s := by
  rintro ⟨pre, suf, rfl⟩
  unfold posCount at h
  rw [List.countP_eq_zero] at h
  have hmem : pre.length ∈ List.range (pre ++ pat ++ suf).length := by
    rw [List.mem_range]
    simp only [List.length_append]
    have hp : 0 < pat.length := List.length_pos.mpr hpat
    omega
  apply h pre.length hmem
  have hdrop : (pre ++ pat ++ suf).drop pre.length = pat ++ suf := by
    rw [List.append_assoc, List.drop_left]
  rw [hdrop, List.isPrefixOf_iff_prefix]
  exact List.prefix_append _ _

/-! ## Claim theorems -/

/-- C1: for every list of post ContentItems, the route builder produces
exactly the three static routes `/` (home), `/posts` (posts), `/about`
(about) in that fixed order, followed by exactly one route per post at
`/posts/<slug>` with template `post`, title `"<post title> - MarkVault"`
(the post's metadata title, interpolated JS-style), and data equal to that
post, in content-reader order; and in the produced list, data is present if
and only if the template is `post`. -/
theorem routes_exact_shape (posts : List ContentItem) :
    (buildRoutes posts).take 3 = [homeRoute, postsRoute, aboutRoute]
    ∧ (buildRoutes posts).drop 3 = posts.map postRouteOf
    ∧ (∀ post ∈ posts, postRouteOf post
        = ⟨"/posts/" ++ post.slug, "post",
            jsInterpOpt (post.metadata.lookup "title") ++ " - MarkVault", some post⟩)
    ∧ (∀ r ∈ buildRoutes posts, r.data.isSome = true ↔ r.template = "post") := by
  refine ⟨rfl, rfl, fun post _ => rfl, ?_⟩
  intro r hr
  rcases List.mem_append.mp hr with hs | hp
  · simp only [List.mem_cons, List.not_mem_nil, or_false] at hs
    rcases hs with h | h | h <;> subst h <;> simp [homeRoute, postsRoute, aboutRoute]
  · obtain ⟨p, _, rfl⟩ := List.mem_map.mp hp
    simp [postRouteOf]

/-- Sample post used to instantiate witnesses. -/
def samplePost : ContentItem := ⟨"hello", [("title", "Hello")], "<h1>Hi</h1>"⟩

/-- Witness for C1 at a one-post list. -/
theorem routes_exact_shape_witness :
    (buildRoutes [samplePost]).take 3 = [homeRoute, postsRoute, aboutRoute]
    ∧ (buildRoutes [samplePost]).drop 3 = [samplePost].map postRouteOf
    ∧ postRouteOf samplePost
        = ⟨"/posts/" ++ samplePost.slug, "post",
            jsInterpOpt (samplePost.metadata.lookup "title") ++ " - MarkVault",
            some samplePost⟩
    ∧ ((postRouteOf samplePost).data.isSome = true
        ↔ (postRouteOf samplePost).template = "post") := by
  have h := routes_exact_shape [samplePost]
  refine ⟨h.1, h.2.1, h.2.2.1 samplePost (by simp), ?_⟩
  exact h.2.2.2 (postRouteOf samplePost) (by simp [buildRoutes])

/-- C2: for every raw input in which the front-matter delimiter pattern
`"---\n"` matches at fewer than two positions, the parser returns empty
metadata and the whole input as body, and does not fail (the yaml
collaborator is never consulted). -/
theorem parser_graceful_no_delims (yamlLoad : List Char → Except String Metadata)
    (content : List Char) (h : posCount frontSep content < 2) :
    parseMarkdown yamlLoad content = Except.ok ⟨[], content⟩ :=
  parseMarkdown_no_front yamlLoad content h

/-- Witness for C2 on a concrete delimiter-free text. -/
theorem parser_graceful_no_delims_witness :
    posCount frontSep ("Just a body\nwith two lines".data) < 2
    ∧ parseMarkdown yamlStub ("Just a body\nwith two lines".data)
        = Except.ok ⟨[], ("Just a body\nwith two lines".data)⟩ :=
  ⟨by decide, parser_graceful_no_delims yamlStub _ (by decide)⟩

/-- C3: for every raw input that begins with a delimited metadata block —
the delimiter line, a block `m` inside which the delimiter never matches,
the closing delimiter line — the parser returns the yaml-parsed mapping of
`m` as metadata and exactly the text `b` after the second delimiter as
body, and it fails (propagating the parse error) exactly when `m` is not
valid mapping syntax. -/
theorem parser_frontmatter_roundtrip (yamlLoad : List Char → Except String Metadata)
    (m b : List Char)
    (hfree : ∀ i, i < m.length →
      frontSep.isPrefixOf ((m ++ (frontSep ++ b)).drop i) = false) :
    parseMarkdown yamlLoad (frontSep ++ (m ++ (frontSep ++ b)))
      = Except.map (fun md => ParsedDoc.mk md b) (yamlLoad m)
    ∧ ((∃ e, parseMarkdown yamlLoad (frontSep ++ (m ++ (frontSep ++ b)))
          = Except.error e)
        ↔ ∃ e, yamlLoad m = Except.error e) := by
  have hmain := parseMarkdown_front yamlLoad m b hfree
  refine ⟨hmain, ?_⟩
  rw [hmain]
  cases yamlLoad m with
  | ok md => simp [Except.map]
  | error e => simp [Except.map]

/-- Witness for C3 on the concrete text `"---\ntitle: x\n---\nbody"`. -/
theorem parser_frontmatter_roundtrip_witness :
    (∀ i, i < ("title: x\n".data).length →
      frontSep.isPrefixOf ((("title: x\n".data) ++ (frontSep ++ ("body".data))).drop i)
        = false)
    ∧ parseMarkdown yamlStub
        (frontSep ++ (("title: x\n".data) ++ (frontSep ++ ("body".data))))
        = Except.map (fun md => ParsedDoc.mk md ("body".data)) (yamlStub ("title: x\n".data)) :=
  ⟨by decide,
   (parser_frontmatter_roundtrip yamlStub ("title: x\n".data) ("body".data) (by decide)).1⟩

/-- C4, counterexample: "for every template name outside
`{home, posts, about, post}` the renderer returns an error fragment
containing the name" fails at `"toString"` — an inherited
`Object.prototype` method, so `components["toString"]` is truthy, the
program calls it, and it resolves with `"[object Object]"`: not the
unknown-template fragment, and not containing `"toString"`. -/
theorem unknown_template_counterexample :
    ("toString" : String) ∉ (["home", "posts", "about", "post"] : List String)
    ∧ renderTemplate ⟨Except.ok [], dateStub⟩ "toString" JsData.null
        = Except.ok (JsValue.str "[object Object]")
    ∧ renderTemplate ⟨Except.ok [], dateStub⟩ "toString" JsData.null
        ≠ Except.ok (JsValue.str (unknownTemplateFragment "toString"))
    ∧ ¬ ∃ pre suf : String, ("[object Object]" : String) = pre ++ "toString" ++ suf := by
  refine ⟨by decide, rfl, ?_, ?_⟩
  · intro hc
    have hr : renderTemplate ⟨Except.ok [], dateStub⟩ "toString" JsData.null
        = Except.ok (JsValue.str "[object Object]") := rfl
    rw [hr] at hc
    simp only [Except.ok.injEq, JsValue.str.injEq] at hc
    exact absurd hc (by decide)
  · rintro ⟨pre, suf, hps⟩
    have hd := congrArg String.data hps
    rw [String.data_append, String.data_append] at hd
    exact not_exists_decomposition ("toString".data) ("[object Object]".data)
      (by decide) (by decide) ⟨pre.data, suf.data, hd.symm⟩

/-- C4, amended: for every template name that is outside
`{home, posts, about, post}` AND not an inherited `Object.prototype`
property name, and any data value, the renderer does not throw: it
resolves with the error fragment, which contains the unknown template
name verbatim. -/
theorem unknown_template_fragment (ctx : Ctx) (template : String) (data : JsData)
    (h : template ∉ (["home", "posts", "about", "post"] : List String))
    (hpp : template ∉ objectProtoProps) :
    renderTemplate ctx template data
      = Except.ok (JsValue.str (unknownTemplateFragment template))
    ∧ ∃ pre suf, unknownTemplateFragment template = pre ++ template ++ suf :=
  ⟨renderTemplate_unknown ctx template data h hpp,
   unknownTemplatePre, unknownTemplateSuf, rfl⟩

/-- Witness for the amended C4 at the unknown name `"header"`. -/
theorem unknown_template_fragment_witness :
    renderTemplate ⟨Except.ok [], dateStub⟩ "header" JsData.null
      = Except.ok (JsValue.str (unknownTemplateFragment "header"))
    ∧ ∃ pre suf, unknownTemplateFragment "header" = pre ++ "header" ++ suf :=
  unknown_template_fragment ⟨Except.ok [], dateStub⟩ "header" JsData.null
    (by decide) (by decide)

/-- C5: rendering the `post` template with null/undefined data never
throws; it resolves with the fallback fragment, which contains the marker
`"not found"`. -/
theorem post_null_data_fallback (ctx : Ctx) :
    renderTemplate ctx "post" JsData.null
      = Except.ok (JsValue.str postNotFoundFragment)
    ∧ ∃ pre suf, postNotFoundFragment = pre ++ "not found" ++ suf :=
  ⟨rfl, "<div>Post ", "</div>", by decide⟩

/-- C8: rendering the `about` template consults the outcome of re-reading
the pages directory (the `pages` field of the renderer context) and
searches it for the item with slug `"about"`; when no such item exists it
returns the fallback fragment instead of failing. -/
theorem about_missing_fallback (pages : List ContentItem)
    (fd : String → String) (data : JsData)
    (h : ∀ p ∈ pages, p.slug ≠ "about") :
    renderTemplate ⟨Except.ok pages, fd⟩ "about" data
      = Except.ok (JsValue.str aboutNotFoundFragment) := by
  have hf : pages.find? (fun page => page.slug == "about") = none :=
    List.find?_eq_none.mpr (fun p hp => by simpa using h p hp)
  unfold renderTemplate
  rw [if_neg (by decide), if_neg (by decide), if_pos rfl]
  simp [aboutBody, hf, Except.map]

/-- Witness for C8 at an empty pages list. -/
theorem about_missing_fallback_witness :
    renderTemplate ⟨Except.ok [], dateStub⟩ "about" JsData.null
      = Except.ok (JsValue.str aboutNotFoundFragment) :=
  about_missing_fallback [] dateStub JsData.null (by simp)

/-- C10, counterexample: "for every template name, awaiting
`renderTemplate` yields a string" fails at `"valueOf"` — the inherited
`Object.prototype` method is truthy, the program calls it, and it resolves
with the `components` object itself, not a string. -/
theorem renderer_nonstring_counterexample :
    renderTemplate ⟨Except.ok [], dateStub⟩ "valueOf" JsData.null
      = Except.ok JsValue.object
    ∧ ¬ ∃ s, renderTemplate ⟨Except.ok [], dateStub⟩ "valueOf" JsData.null
        = Except.ok (JsValue.str s) := by
  refine ⟨rfl, ?_⟩
  rintro ⟨s, hs⟩
  have hr : renderTemplate ⟨Except.ok [], dateStub⟩ "valueOf" JsData.null
      = Except.ok JsValue.object := rfl
  rw [hr] at hs
  simp at hs

/-- C10, amended: awaiting `renderTemplate` never propagates an exception
— for every context, template name and data value it resolves with some JS
value, and with a string whenever the template name is not an inherited
`Object.prototype` name — a true dispatch miss (a name that is neither an
own component key nor inherited) resolves with the unknown-template
fragment, a throw inside a synchronous body is caught and replaced by the
generic error fragment, and a failure of the `about` template's internal
directory re-read is caught and replaced by its own error fragment. -/
theorem renderer_always_resolves (ctx : Ctx) (template : String) (data : JsData) :
    (∃ v, renderTemplate ctx template data = Except.ok v)
    ∧ (template ∉ objectProtoProps →
        ∃ s, renderTemplate ctx template data = Except.ok (JsValue.str s))
    ∧ (template ∉ (["home", "posts", "about", "post"] : List String) →
        template ∉ objectProtoProps →
        renderTemplate ctx template data
          = Except.ok (JsValue.str (unknownTemplateFragment template)))
    ∧ (∀ e, template = "post" → postBody ctx.formatDate data = Except.error e →
        renderTemplate ctx template data
          = Except.ok (JsValue.str genericErrorFragment))
    ∧ (∀ e, template = "about" → ctx.pages = Except.error e →
        renderTemplate ctx template data
          = Except.ok (JsValue.str aboutErrorFragment)) := by
  refine ⟨renderTemplate_ok ctx template data,
          renderTemplate_str ctx template data,
          renderTemplate_unknown ctx template data, ?_, ?_⟩
  · intro e ht hp
    subst ht
    unfold renderTemplate
    rw [if_neg (by decide), if_neg (by decide), if_neg (by decide), if_pos rfl, hp]
    rfl
  · intro e ht hp
    subst ht
    unfold renderTemplate
    rw [if_neg (by decide), if_neg (by decide), if_pos rfl]
    unfold aboutBody
    rw [hp]
    rfl

/-- Witness for the amended C10: a failing re-read context, a malformed
data object, and each branch at concrete inputs. -/
theorem renderer_always_resolves_witness :
    (∃ v, renderTemplate ⟨Except.error "ENOENT", dateStub⟩ "post"
        (JsData.obj none none) = Except.ok v)
    ∧ (∃ s, renderTemplate ⟨Except.error "ENOENT", dateStub⟩ "nav"
        (JsData.obj none none) = Except.ok (JsValue.str s))
    ∧ renderTemplate ⟨Except.error "ENOENT", dateStub⟩ "nav" (JsData.obj none none)
        = Except.ok (JsValue.str (unknownTemplateFragment "nav"))
    ∧ renderTemplate ⟨Except.error "ENOENT", dateStub⟩ "post" (JsData.obj none none)
        = Except.ok (JsValue.str genericErrorFragment)
    ∧ renderTemplate ⟨Except.error "ENOENT", dateStub⟩ "about" (JsData.obj none none)
        = Except.ok (JsValue.str aboutErrorFragment) := by
  have h := renderer_always_resolves ⟨Except.error "ENOENT", dateStub⟩ "post"
    (JsData.obj none none)
  have h2 := renderer_always_resolves ⟨Except.error "ENOENT", dateStub⟩ "nav"
    (JsData.obj none none)
  have h3 := renderer_always_resolves ⟨Except.error "ENOENT", dateStub⟩ "about"
    (JsData.obj none none)
  exact ⟨h.1, h2.2.1 (by decide), h2.2.2.1 (by decide) (by decide),
         h.2.2.2.1 "TypeError: cannot read title of undefined" rfl rfl,
         h3.2.2.2.2 "ENOENT" rfl rfl⟩

/-- C6: for every environment whose base document lacks the `#root` mount
element, page assembly fails for every route — after the renderer
successfully resolved, so the failure is not caught at the renderer
boundary — and the whole build aborts with exit status 1. -/
theorem missing_root_fatal (env : Env) (h : env.baseHasRoot = false) :
    (∀ route : Route, ∃ s,
      renderTemplate (ctxOf env) route.template (dataToJs route.data) = Except.ok s)
    ∧ (∀ route : Route,
        generateHTML env route = Except.error "TypeError: cannot set innerHTML of null")
    ∧ build env = BuildResult.exitCode 1 := by
  refine ⟨fun route => renderTemplate_ok _ _ _,
          fun route => generateHTML_err env route h, ?_⟩
  obtain ⟨e, he⟩ := buildCore_err_of_noRoot env h
  unfold build
  rw [he]

/-- A concrete environment whose base document lacks the mount node. -/
def envNoRoot : Env :=
  ⟨Except.ok [], Except.ok [], false, yamlStub, markedStub, dateStub⟩

/-- Witness for C6 at a concrete rootless environment and the home route. -/
theorem missing_root_fatal_witness :
    (∃ s, renderTemplate (ctxOf envNoRoot) homeRoute.template
        (dataToJs homeRoute.data) = Except.ok s)
    ∧ generateHTML envNoRoot homeRoute
        = Except.error "TypeError: cannot set innerHTML of null"
    ∧ build envNoRoot = BuildResult.exitCode 1 := by
  have h := missing_root_fatal envNoRoot rfl
  exact ⟨h.1 homeRoute, h.2.1 homeRoute, h.2.2⟩

/-- Unfolding the content reader at a cons. -/
lemma readContent_cons (yamlLoad : List Char → Except String Metadata)
    (marked : List Char → String) (name : String) (text : List Char)
    (rest : List (String × List Char)) :
    readContent yamlLoad marked ((name, text) :: rest)
      = if jsEndsWith ".md" name then
          match parseMarkdown yamlLoad text with
          | Except.error e => Except.error e
          | Except.ok d =>
            match readContent yamlLoad marked rest with
            | Except.error e => Except.error e
            | Except.ok items =>
              Except.ok ({ slug := jsReplaceFirst ".md" "" name
                         , metadata := d.metadata
                         , content := marked d.content } :: items)
        else readContent yamlLoad marked rest := rfl

/-- C7, counterexample: the claim "each produced ContentItem's slug equals
the filename without its extension" fails at the listing
`[("a.mdx.md", "hi")]` — the entry is processed (it ends in `.md`), but the
produced slug is `"ax.md"` (the first `.md` occurrence removed), while the
filename without its extension is `"a.mdx"`. -/
theorem reader_slug_counterexample :
    (readContent yamlStub markedStub [("a.mdx.md", "hi".data)]).map
        (fun items => items.map ContentItem.slug)
      = Except.ok ["ax.md"]
    ∧ withoutExtension "a.mdx.md" = "a.mdx"
    ∧ ("ax.md" : String) ≠ "a.mdx" := by
  have hp : parseMarkdown yamlStub ("hi".data) = Except.ok ⟨[], "hi".data⟩ :=
    parseMarkdown_no_front yamlStub _ (by decide)
  refine ⟨?_, by decide, by decide⟩
  rw [readContent_cons, if_pos (by decide), hp]
  rfl

/-- C7, amended: the content reader processes exactly the entries whose
name ends in `.md`, in listing order, and each produced item's slug is the
filename with its first `.md` occurrence removed (which equals the
filename without its extension whenever `.md` occurs only as the final
extension). -/
theorem reader_filter_and_slug (yamlLoad : List Char → Except String Metadata)
    (marked : List Char → String) (files : List (String × List Char))
    (items : List ContentItem)
    (h : readContent yamlLoad marked files = Except.ok items) :
    items.map ContentItem.slug
      = (files.filter (fun f => jsEndsWith ".md" f.1)).map
          (fun f => jsReplaceFirst ".md" "" f.1) := by
  induction files generalizing items with
  | nil =>
    rw [show readContent yamlLoad marked [] = Except.ok [] from rfl] at h
    simp only [Except.ok.injEq] at h
    subst h
    rfl
  | cons f rest ih =>
    obtain ⟨name, text⟩ := f
    rw [readContent_cons] at h
    by_cases hmd : jsEndsWith ".md" name = true
    · rw [if_pos hmd] at h
      cases hp : parseMarkdown yamlLoad text with
      | error e =>
        rw [hp] at h
        exact absurd h (by simp)
      | ok d =>
        rw [hp] at h
        cases hr : readContent yamlLoad marked rest with
        | error e =>
          rw [hr] at h
          exact absurd h (by simp)
        | ok its =>
          rw [hr] at h
          simp only [Except.ok.injEq] at h
          subst h
          rw [List.filter_cons, if_pos (by simpa using hmd)]
          simp only [List.map_cons]
          exact congrArg (fun l => jsReplaceFirst ".md" "" name :: l) (ih its hr)
    · have hmd' : ¬ jsEndsWith ".md" name = true := hmd
      rw [if_neg hmd'] at h
      rw [List.filter_cons, if_neg (by simpa using hmd)]
      exact ih items h

/-- Witness for the amended C7: one `.md` entry and one `.txt` entry. -/
theorem reader_filter_and_slug_witness :
    readContent yamlStub markedStub [("b.md", "text".data), ("notes.txt", "x".data)]
      = Except.ok [{ slug := "b", metadata := [], content := markedStub ("text".data) }]
    ∧ [ContentItem.mk "b" [] (markedStub ("text".data))].map ContentItem.slug
      = ([("b.md", "text".data), ("notes.txt", "x".data)].filter
          (fun f => jsEndsWith ".md" f.1)).map (fun f => jsReplaceFirst ".md" "" f.1) := by
  have hp : parseMarkdown yamlStub ("text".data) = Except.ok ⟨[], "text".data⟩ :=
    parseMarkdown_no_front yamlStub _ (by decide)
  have hr : readContent yamlStub markedStub [("b.md", "text".data), ("notes.txt", "x".data)]
      = Except.ok [{ slug := "b", metadata := [], content := markedStub ("text".data) }] := by
    rw [readContent_cons, if_pos (by decide), hp,
        readContent_cons, if_neg (by decide)]
    rfl
  exact ⟨hr, reader_filter_and_slug yamlStub markedStub _ _ hr⟩

/-- A concrete environment with zero post files (and zero page files). -/
def envZeroPosts : Env :=
  ⟨Except.ok [], Except.ok [], true, yamlStub, markedStub, dateStub⟩

/-- C9, counterexample: with zero post files the route list is exactly the
three static routes, but the build still writes `docs/posts/index.html`
(the `/posts` listing page) and creates the directory `docs/posts` — so
"writes nothing under `docs/posts/` (the directory is not created)" is
false. -/
theorem zero_posts_counterexample :
    (buildCore envZeroPosts).map (fun out => (out.dirs, out.pages.map Prod.fst))
      = Except.ok (["docs", "docs/posts", "docs/about"],
                   ["docs/index.html", "docs/posts/index.html", "docs/about/index.html"])
    ∧ jsStartsWith "docs/posts/" "docs/posts/index.html" = true
    ∧ ("docs/posts" : String) ∈ (["docs", "docs/posts", "docs/about"] : List String) := by
  refine ⟨rfl, by decide, by decide⟩

/-- C9, amended: with zero post files the route list is exactly
`/`, `/posts`, `/about`; the route loop creates exactly the directories
`docs`, `docs/posts`, `docs/about` and writes exactly the three listing
pages, so exactly one written file lies under `docs/posts/` — the posts
index page — and no per-post subdirectory exists. -/
theorem zero_posts_routes_and_outputs (env : Env)
    (pfiles : List (String × List Char)) (out : BuildOutput)
    (hp : env.postsDir = Except.ok pfiles)
    (hmd : pfiles.filter (fun f => jsEndsWith ".md" f.1) = [])
    (h : buildCore env = Except.ok out) :
    readDir env.yamlLoad env.marked env.postsDir = Except.ok []
    ∧ buildRoutes ([] : List ContentItem) = [homeRoute, postsRoute, aboutRoute]
    ∧ out.dirs = ["docs", "docs/posts", "docs/about"]
    ∧ out.pages.map Prod.fst
        = ["docs/index.html", "docs/posts/index.html", "docs/about/index.html"]
    ∧ (out.pages.map Prod.fst).filter (fun p => jsStartsWith "docs/posts/" p)
        = ["docs/posts/index.html"] := by
  have hposts : readDir env.yamlLoad env.marked env.postsDir = Except.ok [] := by
    rw [hp]
    exact readContent_no_md env.yamlLoad env.marked pfiles hmd
  have hroot : env.baseHasRoot = true := by
    cases hb : env.baseHasRoot with
    | true => rfl
    | false =>
      obtain ⟨e, he⟩ := buildCore_err_of_noRoot env hb
      rw [he] at h
      exact absurd h (by simp)
  obtain ⟨s1, _, hg1⟩ := generateHTML_ok env homeRoute hroot
  obtain ⟨s2, _, hg2⟩ := generateHTML_ok env postsRoute hroot
  obtain ⟨s3, _, hg3⟩ := generateHTML_ok env aboutRoute hroot
  have e0 : routeOutputs env ([] : List Route) = Except.ok ⟨[], []⟩ := rfl
  have e3 := routeOutputs_cons_ok env aboutRoute [] _ _ hg3 e0
  have e2 := routeOutputs_cons_ok env postsRoute [aboutRoute] _ _ hg2 e3
  have e1 := routeOutputs_cons_ok env homeRoute [postsRoute, aboutRoute] _ _ hg1 e2
  cases hpg : readDir env.yamlLoad env.marked env.pagesDir with
  | error e =>
    have hbc : buildCore env = Except.error e := by
      unfold buildCore
      rw [hposts, hpg]
    rw [hbc] at h
    exact absurd h (by simp)
  | ok pg =>
    have hbc : buildCore env = routeOutputs env (buildRoutes []) := by
      unfold buildCore
      rw [hposts, hpg]
    rw [hbc] at h
    rw [show buildRoutes ([] : List ContentItem)
          = [homeRoute, postsRoute, aboutRoute] from rfl] at h
    rw [e1] at h
    simp only [Except.ok.injEq] at h
    subst h
    refine ⟨hposts, rfl, ?_, ?_, ?_⟩
    all_goals rfl

/-- The output of a build over `envZeroPosts`: the three listing pages and
their directories. -/
def zeroPostsOut : BuildOutput :=
  ⟨["docs", "docs/posts", "docs/about"],
   [("docs/index.html",
      ⟨"MarkVault - Home", updateMetaTags "MarkVault - Home" "/" JsData.null,
       homeFragment⟩),
    ("docs/posts/index.html",
      ⟨"All Posts - MarkVault", updateMetaTags "All Posts - MarkVault" "/posts" JsData.null,
       postsFragment⟩),
    ("docs/about/index.html",
      ⟨"About - MarkVault", updateMetaTags "About - MarkVault" "/about" JsData.null,
       aboutNotFoundFragment⟩)]⟩

/-- Witness for the amended C9 at the concrete zero-post environment. -/
theorem zero_posts_routes_and_outputs_witness :
    envZeroPosts.postsDir = Except.ok []
    ∧ (([] : List (String × List Char)).filter (fun f => jsEndsWith ".md" f.1) = [])
    ∧ buildCore envZeroPosts = Except.ok zeroPostsOut
    ∧ (readDir envZeroPosts.yamlLoad envZeroPosts.marked envZeroPosts.postsDir
          = Except.ok []
       ∧ buildRoutes ([] : List ContentItem) = [homeRoute, postsRoute, aboutRoute]
       ∧ zeroPostsOut.dirs = ["docs", "docs/posts", "docs/about"]
       ∧ zeroPostsOut.pages.map Prod.fst
           = ["docs/index.html", "docs/posts/index.html", "docs/about/index.html"]
       ∧ (zeroPostsOut.pages.map Prod.fst).filter (fun p => jsStartsWith "docs/posts/" p)
           = ["docs/posts/index.html"]) :=
  ⟨rfl, rfl, rfl,
   zero_posts_routes_and_outputs envZeroPosts [] zeroPostsOut rfl rfl rfl⟩

end MarkVault
